import Mathlib

/-!
Shallow embedding of the apkmirror-downloader pipeline (src/main.ts).

DOM documents are modelled by records holding exactly the element data the
source reads through its selectors: each `.listWidget` container carries its
heading text, its `.appRow .appRowTitle > a` anchors and its
`:scope > :last-child a` anchors; each anchor carries its href, its
textContent and (when present) its parent element's data.  Nullable DOM
values (`textContent`, `parentElement`, header elements) are `Option`s,
mirroring the source's optional chaining.  Thrown `Error`s become an `Err`
inductive carrying the source's message strings; `console.error` diagnostic
lines are returned alongside the result.  Filesystem and network side
effects are recorded as an explicit effect trace.
-/

namespace Apkmd

/-- JS `String.prototype.includes`: substring test (true for the empty
needle), as used by every text match in the source. -/
def includes (s sub : String) : Bool :=
  (List.range (s.data.length + 1)).any fun i => sub.data.isPrefixOf (s.data.drop i)

/-- JS `String.prototype.toLowerCase` on the character list (the source
only ever lowercases before matching ASCII needles, where the JS mapping
agrees with `Char.toLower`). -/
def toLowerStr (s : String) : String :=
  String.mk (s.data.map Char.toLower)

/-- The `Error`s thrown by src/main.ts, one constructor per `throw` site
(`Err.message` reproduces the thrown message strings).  Both version
resolvers throw the same "latest stable" message. -/
inductive Err where
  | selectorNotFound
  | containerNotFound
  | noStable
  | noNonBundle
  | noDownloadPage
  | noDirectDownload
  | parseFailed
  | downloadFailed
  | emptyArgument
  deriving DecidableEq, Repr

/-- The message string of each thrown `Error` in src/main.ts. -/
def Err.message : Err → String
  | .selectorNotFound => "Couldn't find a matching element for selector"
  | .containerNotFound => "Couldn't find container with matching heading"
  | .noStable => "Couldn't find anchor element for latest stable APK"
  | .noNonBundle => "Couldn't find anchor element for normal/non-bundled APK"
  | .noDownloadPage => "Couldn't find anchor element for APK download page"
  | .noDirectDownload => "Couldn't find anchor element for direct APK download"
  | .parseFailed => "An error occurred while trying to parse the page"
  | .downloadFailed => "An error occurred while trying to download the file"
  | .emptyArgument => "At least one empty argument was passed to this function"

/-- Decidable equality for fallible results, so witnesses can be checked by
evaluation. -/
instance {ε α : Type} [DecidableEq ε] [DecidableEq α] :
    DecidableEq (Except ε α) := fun x y =>
  match x, y with
  | .error a, .error b =>
    if h : a = b then isTrue (by rw [h])
    else isFalse fun hc => h (by injection hc)
  | .ok a, .ok b =>
    if h : a = b then isTrue (by rw [h])
    else isFalse fun hc => h (by injection hc)
  | .error _, .ok _ => isFalse fun hc => Except.noConfusion hc
  | .ok _, .error _ => isFalse fun hc => Except.noConfusion hc

/-- The data getNonBundleURL reads from an anchor's parent element:
`children.length`, the textContents of the `.apkm-badge` descendants, and
`parentElement?.children?.[1]?.textContent` (the architecture cell reached
through the grandparent). -/
structure ParentEl where
  childCount : Nat
  badges : List (Option String)
  archText : Option String
  deriving DecidableEq, Repr

/-- An `HTMLAnchorElement` as the source reads it: `href`, `textContent`
(nullable) and the nullable parent element. -/
structure Anchor where
  href : String
  textContent : Option String
  parent : Option ParentEl
  deriving DecidableEq, Repr

/-- One `.listWidget` container: the textContent of its
`:scope > .widgetHeader` (none when the header or its text is absent), its
`.appRow .appRowTitle > a` anchors, and its `:scope > :last-child a`
anchors, each in document order. -/
structure ListWidget where
  headingText : Option String
  versionAnchors : List Anchor
  lastChildAnchors : List Anchor
  deriving DecidableEq, Repr

/-- A parsed page: its `.listWidget` containers in document order, plus the
single-element query results used by the last two chain stages
(`querySelector` returns the first match or null). -/
structure Document where
  listWidgets : List ListWidget
  downloadPageButton : Option Anchor
  directDownloadButton : Option Anchor
  deriving DecidableEq, Repr

/-- `queryAll(element, selectors)`: the selector's matches, throwing when
the element was null (`element?.querySelectorAll` is undefined) or the
match list is empty. -/
def queryAll {α : Type} (el : Option (List α)) : Except Err (List α) :=
  match el with
  | none => .error .selectorNotFound
  | some list => if list.length = 0 then .error .selectorNotFound else .ok list

/-- The predicate of `findContainerWithHeading`:
`x.querySelector(":scope > .widgetHeader")?.textContent?.includes(text)`
(an undefined chain result is falsy). -/
def headingMatches (text : String) (x : ListWidget) : Bool :=
  (x.headingText.map fun t => includes t text).getD false

/-- `findContainerWithHeading(list, text)`: first container whose heading
text includes `text`, else throws. -/
def findContainerWithHeading (list : List ListWidget) (text : String) :
    Except Err ListWidget :=
  match list.find? (headingMatches text) with
  | none => .error .containerNotFound
  | some result => .ok result

/-- The `find` predicate of getLatestStableURL:
`!(x.textContent?.toLowerCase().includes("alpha") ||
   x.textContent?.toLowerCase().includes("beta"))`
(undefined operands of `||` are falsy). -/
def isStableAnchor (x : Anchor) : Bool :=
  !((x.textContent.map fun t => includes (toLowerStr t) "alpha").getD false ||
    (x.textContent.map fun t => includes (toLowerStr t) "beta").getD false)

/-- A character matched by the regex class `[\d.]`. -/
def isVerChar (c : Char) : Bool :=
  c.isDigit || c == '.'

/-- `text.match(/[\d.]+/)?.[0]` on a character list: the leftmost maximal
run of digits and dots, or none. -/
def firstRunList (l : List Char) : Option (List Char) :=
  match l.dropWhile (fun c => !isVerChar c) with
  | [] => none
  | l' => some (l'.takeWhile isVerChar)

/-- `s.match(/[\d.]+/)?.[0]` as an `Option String`. -/
def firstRun (s : String) : Option String :=
  (firstRunList s.data).map String.mk

/-- `latestStable.textContent?.match(/[\d.]+/)?.[0] || "unknown"`: the
version label (a successful match is a nonempty, hence truthy, string). -/
def extractVersion (t : Option String) : String :=
  (t.bind firstRun).getD "unknown"

/-- `versionContainer.querySelector(":scope > :last-child a")`: the first
element matching the same selector queryAll uses on that container. -/
def moreUploads (c : ListWidget) : Option Anchor :=
  c.lastChildAnchors.head?

/-- The `console.error` diagnostic line printed before a resolver throws
when a "more uploads" link exists. -/
def moreUploadsMsg (href : String) : String :=
  "Here you can manually browse the latest APKs: " ++ href

/-- `getLatestStableURL(document)`: `[href, version]` of the first version
anchor whose text contains neither "alpha" nor "beta", paired with the
`console.error` lines emitted on the failure path.  The source's
`.filter((x) => x != null)` is the identity here: the model has no null
anchors. -/
def getLatestStableURL (document : Document) :
    List String × Except Err (String × String) :=
  match queryAll (some document.listWidgets) with
  | .error e => ([], .error e)
  | .ok containers =>
    match findContainerWithHeading containers "All versions" with
    | .error e => ([], .error e)
    | .ok versionContainer =>
      match queryAll (some versionContainer.versionAnchors) with
      | .error e => ([], .error e)
      | .ok versions =>
        match versions.find? isStableAnchor with
        | none =>
          match moreUploads versionContainer with
          | some m => ([moreUploadsMsg m.href], .error .noStable)
          | none => ([], .error .noStable)
        | some latestStable =>
          ([], .ok (latestStable.href, extractVersion latestStable.textContent))

/-- The `find` predicate of getCustomVersionURL:
`x.textContent?.toLowerCase().includes(version)` — the anchor text is
lowercased, the requested string is used verbatim. -/
def matchesVersion (version : String) (x : Anchor) : Bool :=
  (x.textContent.map fun t => includes (toLowerStr t) version).getD false

/-- `getCustomVersionURL(version, document)`: href of the first version
anchor whose lowercased text contains `version`, paired with the
`console.error` lines emitted on the failure path. -/
def getCustomVersionURL (version : String) (document : Document) :
    List String × Except Err String :=
  match queryAll (some document.listWidgets) with
  | .error e => ([], .error e)
  | .ok containers =>
    match findContainerWithHeading containers "All versions" with
    | .error e => ([], .error e)
    | .ok versionContainer =>
      match queryAll (some versionContainer.versionAnchors) with
      | .error e => ([], .error e)
      | .ok versions =>
        match versions.find? (matchesVersion version) with
        | none =>
          match moreUploads versionContainer with
          | some m => ([moreUploadsMsg m.href], .error .noStable)
          | none => ([], .error .noStable)
        | some customVersion => ([], .ok customVersion.href)

/-- Structural filter of getNonBundleURL:
`length = x.parentElement?.children.length; length != null && length > 1`. -/
def structuralOk (x : Anchor) : Bool :=
  match x.parent.map fun p => p.childCount with
  | none => false
  | some length => decide (length > 1)

/-- Architecture filter of getNonBundleURL, with the source's shadowing
kept: the inner `arch` (the row's architecture cell text, reached through
`x.parentElement?.parentElement?.children?.[1]?.textContent`) shadows the
requested architecture, so `arch == arch` compares it to itself. -/
def archFilter (arch : String) (x : Anchor) : Bool :=
  if arch != "" then
    let arch := x.parent.bind fun p => p.archText
    arch == arch || arch == some "universal"
  else true

/-- One badge's test in the bundle check:
`x.textContent?.toLowerCase().includes("bundle")` (undefined is falsy). -/
def isBundleBadge (b : Option String) : Bool :=
  (b.map fun t => includes (toLowerStr t) "bundle").getD false

/-- The `find` predicate of getNonBundleURL, which can itself throw:
`queryAll(x.parentElement, ".apkm-badge")` fails when the parent is null or
has no badge, otherwise the candidate passes iff no badge says "bundle". -/
def bundleCheck (x : Anchor) : Except Err Bool :=
  match queryAll (x.parent.map fun p => p.badges) with
  | .error e => .error e
  | .ok badges => .ok (!badges.any isBundleBadge)

/-- `Array.prototype.find` with a predicate that may throw: the exception
propagates out of the scan. -/
def findE {α : Type} (p : α → Except Err Bool) : List α → Except Err (Option α)
  | [] => .ok none
  | x :: xs =>
    match p x with
    | .error e => .error e
    | .ok true => .ok (some x)
    | .ok false => findE p xs

/-- The candidates remaining after getNonBundleURL's structural and
architecture filters (its `.filter((x) => x != null)` is the identity
here). -/
def survivors (downloads : List Anchor) (arch : String) : List Anchor :=
  (downloads.filter structuralOk).filter (archFilter arch)

/-- `getNonBundleURL(document, arch)`: href of the first surviving anchor
under the "Download" container's last child whose badges include no
"bundle". -/
def getNonBundleURL (document : Document) (arch : String) : Except Err String :=
  match queryAll (some document.listWidgets) with
  | .error e => .error e
  | .ok containers =>
    match findContainerWithHeading containers "Download" with
    | .error e => .error e
    | .ok downloadContainer =>
      match queryAll (some downloadContainer.lastChildAnchors) with
      | .error e => .error e
      | .ok downloads =>
        match findE bundleCheck (survivors downloads arch) with
        | .error e => .error e
        | .ok none => .error .noNonBundle
        | .ok (some nonBundleDownload) => .ok nonBundleDownload.href

/-- `getDownloadPageURL(document)`: the
`.card-with-tabs .tab-content #file a.downloadButton` anchor's href. -/
def getDownloadPageURL (document : Document) : Except Err String :=
  match document.downloadPageButton with
  | none => .error .noDownloadPage
  | some downloadPageButton => .ok downloadPageButton.href

/-- `getDirectDownloadURL(document)`: the first `.card-with-tabs a`
anchor's href. -/
def getDirectDownloadURL (document : Document) : Except Err String :=
  match document.directDownloadButton with
  | none => .error .noDirectDownload
  | some directDownloadButton => .ok directDownloadButton.href

/-- A filesystem or network side effect of the pipeline, in the order the
source issues them. -/
inductive Effect where
  | fetch (url : String)
  | mkdirRec (dir : String)
  | writeFile (path : String)
  deriving DecidableEq, Repr

/-- The final GET's response as `download` reads it:
`headers.get("Content-Type")` (null when absent) and the nullable body
stream (its bytes are irrelevant to the control flow). -/
structure Response where
  contentType : Option String
  body : Option Unit
  deriving DecidableEq, Repr

/-- The expected MIME type compared against in `download`. -/
def apkMime : String := "application/vnd.android.package-archive"

/-- The deterministic output path `apps/{name}_{arch}_{version}.apk`. -/
def apkPath (name arch version : String) : String :=
  "apps/" ++ name ++ "_" ++ arch ++ "_" ++ version ++ ".apk"

/-- `download(name, url, arch, version)`: issues the GET, awaits
`mkdir("apps", { recursive: true })`, then pipes the body to the output
file when `body != null && isAPK`, else throws.  URLs are represented by
their path strings. -/
def download (name : String) (url : String) (arch : String) (version : String)
    (response : Response) : List Effect × Except Err Unit :=
  let path := apkPath name arch version
  let isAPK := response.contentType == some apkMime
  match response.body, isAPK with
  | some _, true =>
    ([Effect.fetch url, Effect.mkdirRec "apps", Effect.writeFile path], .ok ())
  | _, _ => ([Effect.fetch url, Effect.mkdirRec "apps"], .error .downloadFailed)

/-- The network environment `downloadApp` runs against: what
`getDocumentFromURL` parses at each URL, and the final GET's response.
(Fetching and parsing are the external collaborators the pipeline calls.) -/
structure Env where
  fetchDoc : String → Document
  fetchResp : String → Response

/-- The `downloadFunctions` array: each element is called as
`dlFunc(document, arch)`; the last two ignore the extra argument. -/
def downloadFunctions : List (Document → String → Except Err String) :=
  [fun d a => getNonBundleURL d a,
   fun d _ => getDownloadPageURL d,
   fun d _ => getDirectDownloadURL d]

/-- The `for (const dlFunc of downloadFunctions)` loop: fetch the current
URL, apply the stage, feed its output to the next fetch. -/
def runChain (env : Env) (fs : List (Document → String → Except Err String))
    (arch : String) (urlPath : String) : List Effect × Except Err String :=
  match fs with
  | [] => ([], .ok urlPath)
  | f :: rest =>
    match f (env.fetchDoc urlPath) arch with
    | .error e => ([Effect.fetch urlPath], .error e)
    | .ok next =>
      let (tr, res) := runChain env rest arch next
      (Effect.fetch urlPath :: tr, res)

/-- `downloadApp(name, urlPath, arch, version?)`: guard against empty
`name`/`urlPath` (JS falsiness of strings), resolve the version (the
explicit branch is taken when `version` is a nonempty string), run the
three-stage chain, then download.  The effect trace lists every fetch,
mkdir and file write in order. -/
def downloadApp (env : Env) (name : String) (urlPath : String) (arch : String)
    (version : Option String) : List Effect × Except Err Unit :=
  if name == "" || urlPath == "" then ([], .error .emptyArgument)
  else
    let document := env.fetchDoc urlPath
    let resolved : Except Err (String × String) :=
      if version.getD "" != "" then
        match (getCustomVersionURL (version.getD "") document).2 with
        | .error e => .error e
        | .ok p => .ok (p, version.getD "")
      else (getLatestStableURL document).2
    match resolved with
    | .error e => ([Effect.fetch urlPath], .error e)
    | .ok (path1, ver) =>
      let (tr, res) := runChain env downloadFunctions arch path1
      match res with
      | .error e => (Effect.fetch urlPath :: tr, .error e)
      | .ok finalPath =>
        let (dtr, dres) := download name finalPath arch ver (env.fetchResp finalPath)
        (Effect.fetch urlPath :: (tr ++ dtr), dres)

/-- The maximal runs of digits and dots in a character list (helper for the
spec-side reading of the version-label rule). -/
def verRunsAux : List Char → List Char → List (List Char)
  | [], acc => if acc.isEmpty then [] else [acc.reverse]
  | c :: cs, acc =>
    if isVerChar c then verRunsAux cs (c :: acc)
    else if acc.isEmpty then verRunsAux cs []
    else acc.reverse :: verRunsAux cs []

/-- The maximal runs of digits and dots in a string, in order. -/
def verRuns (s : String) : List String :=
  (verRunsAux s.data []).map String.mk

/-- The spec's description of the version label ("the longest run of digits
and dots"), stated as written for comparison with the source's
`extractVersion`: the longest maximal run (the first one on ties). -/
def specLongestRun (s : String) : Option String :=
  (verRuns s).foldl
    (fun best r =>
      match best with
      | none => some r
      | some b => if r.length > b.length then some r else some b)
    none

/-! ## Helper lemmas -/

theorem queryAll_ok {α : Type} (l : List α) (h : l ≠ []) :
    queryAll (some l) = Except.ok l := by
  simp [queryAll, List.length_eq_zero, h]

theorem findContainer_eq_find? (list : List ListWidget) (text : String)
    (c : ListWidget) (h : findContainerWithHeading list text = Except.ok c) :
    list.find? (headingMatches text) = some c := by
  unfold findContainerWithHeading at h
  cases hf : list.find? (headingMatches text) with
  | none => rw [hf] at h; exact absurd h (by simp)
  | some r => rw [hf] at h; injection h with h; rw [h]

theorem widgets_ne_nil (list : List ListWidget) (text : String) (c : ListWidget)
    (h : findContainerWithHeading list text = Except.ok c) : list ≠ [] :=
  List.ne_nil_of_mem (List.mem_of_find?_eq_some (findContainer_eq_find? _ _ _ h))

theorem find?_eq_some_split {α : Type} {p : α → Bool} {l : List α} {a : α}
    (h : l.find? p = some a) :
    ∃ l₁ l₂, l = l₁ ++ a :: l₂ ∧ p a = true ∧ ∀ b ∈ l₁, p b = false := by
  induction l with
  | nil => simp [List.find?] at h
  | cons x xs ih =>
    by_cases hx : p x = true
    · rw [List.find?_cons_of_pos _ hx] at h
      injection h with h
      subst h
      exact ⟨[], xs, rfl, hx, by simp⟩
    · rw [List.find?_cons_of_neg _ hx] at h
      obtain ⟨l₁, l₂, heq, hpa, hpre⟩ := ih h
      refine ⟨x :: l₁, l₂, by rw [heq]; rfl, hpa, ?_⟩
      intro b hb
      rcases List.mem_cons.mp hb with hb | hb
      · rw [hb]; exact Bool.eq_false_iff.mpr hx
      · exact hpre b hb

theorem getLatestStableURL_ok (doc : Document) (container : ListWidget) (a : Anchor)
    (hFind : findContainerWithHeading doc.listWidgets "All versions" = Except.ok container)
    (hfind : container.versionAnchors.find? isStableAnchor = some a) :
    getLatestStableURL doc = ([], Except.ok (a.href, extractVersion a.textContent)) := by
  have hW := widgets_ne_nil _ _ _ hFind
  have hV : container.versionAnchors ≠ [] :=
    List.ne_nil_of_mem (List.mem_of_find?_eq_some hfind)
  simp only [getLatestStableURL, queryAll_ok _ hW, hFind, queryAll_ok _ hV, hfind]

theorem getLatestStableURL_none (doc : Document) (container : ListWidget)
    (hFind : findContainerWithHeading doc.listWidgets "All versions" = Except.ok container)
    (hV : container.versionAnchors ≠ [])
    (hfind : container.versionAnchors.find? isStableAnchor = none) :
    getLatestStableURL doc =
      match moreUploads container with
      | some m => ([moreUploadsMsg m.href], Except.error Err.noStable)
      | none => ([], Except.error Err.noStable) := by
  have hW := widgets_ne_nil _ _ _ hFind
  simp only [getLatestStableURL, queryAll_ok _ hW, hFind, queryAll_ok _ hV, hfind]

theorem getCustomVersionURL_ok (version : String) (doc : Document)
    (container : ListWidget) (a : Anchor)
    (hFind : findContainerWithHeading doc.listWidgets "All versions" = Except.ok container)
    (hfind : container.versionAnchors.find? (matchesVersion version) = some a) :
    getCustomVersionURL version doc = ([], Except.ok a.href) := by
  have hW := widgets_ne_nil _ _ _ hFind
  have hV : container.versionAnchors ≠ [] :=
    List.ne_nil_of_mem (List.mem_of_find?_eq_some hfind)
  simp only [getCustomVersionURL, queryAll_ok _ hW, hFind, queryAll_ok _ hV, hfind]

theorem getNonBundleURL_eq (doc : Document) (arch : String) (container : ListWidget)
    (hFind : findContainerWithHeading doc.listWidgets "Download" = Except.ok container)
    (hV : container.lastChildAnchors ≠ []) :
    getNonBundleURL doc arch =
      match findE bundleCheck (survivors container.lastChildAnchors arch) with
      | .error e => .error e
      | .ok none => .error .noNonBundle
      | .ok (some a) => .ok a.href := by
  have hW := widgets_ne_nil _ _ _ hFind
  simp only [getNonBundleURL, queryAll_ok _ hW, hFind, queryAll_ok _ hV]

/-! ## Concrete documents used by witnesses and counterexamples -/

/-- Listing widget with a beta release above the latest stable one. -/
def wAllStable : ListWidget :=
  { headingText := some "All versions",
    versionAnchors := [
      { href := "/v2", textContent := some "2.0.0 beta", parent := none },
      { href := "/v1", textContent := some "1.9.5", parent := none }],
    lastChildAnchors := [] }

/-- A listing page around `wAllStable`. -/
def docStable : Document :=
  { listWidgets := [wAllStable], downloadPageButton := none,
    directDownloadButton := none }

/-- Listing widget whose only upload is a beta, with a "more uploads" link
in its last child. -/
def wAllBeta : ListWidget :=
  { headingText := some "All versions",
    versionAnchors := [
      { href := "/v2", textContent := some "2.0.0 beta", parent := none }],
    lastChildAnchors := [{ href := "/more", textContent := none, parent := none }] }

/-- A listing page around `wAllBeta`. -/
def docAllBeta : Document :=
  { listWidgets := [wAllBeta], downloadPageButton := none,
    directDownloadButton := none }

/-! ## Claim theorems -/

/-- C1: for every listing document whose "All versions" container resolves
and holds at least one version anchor whose text does not case-insensitively
contain "alpha" or "beta", getLatestStableURL returns the href of the first
such anchor in document order, never a later one. -/
theorem getLatestStableURL_first_stable (doc : Document) (container : ListWidget)
    (hFind : findContainerWithHeading doc.listWidgets "All versions" =
      Except.ok container)
    (hEx : ∃ a ∈ container.versionAnchors, isStableAnchor a = true) :
    ∃ a pre post, container.versionAnchors = pre ++ a :: post ∧
      isStableAnchor a = true ∧ (∀ b ∈ pre, isStableAnchor b = false) ∧
      (getLatestStableURL doc).2 = Except.ok (a.href, extractVersion a.textContent) := by
  obtain ⟨a0, ha0, hs0⟩ := hEx
  have hsome : (container.versionAnchors.find? isStableAnchor).isSome :=
    List.find?_isSome.mpr ⟨a0, ha0, hs0⟩
  obtain ⟨a, hfind⟩ := Option.isSome_iff_exists.mp hsome
  obtain ⟨pre, post, heq, hpa, hpre⟩ := find?_eq_some_split hfind
  exact ⟨a, pre, post, heq, hpa, hpre, by
    rw [getLatestStableURL_ok doc container a hFind hfind]⟩

/-- Witness for C1 at the spec's end-to-end scenario: anchors
`"2.0.0 beta" ↦ /v2` then `"1.9.5" ↦ /v1`; resolution picks `/v1`. -/
theorem getLatestStableURL_first_stable_witness :
    ∃ a pre post, wAllStable.versionAnchors = pre ++ a :: post ∧
      isStableAnchor a = true ∧ (∀ b ∈ pre, isStableAnchor b = false) ∧
      (getLatestStableURL docStable).2 =
        Except.ok (a.href, extractVersion a.textContent) :=
  getLatestStableURL_first_stable docStable wAllStable (by decide) (by decide)

/-- C7: for every listing document whose "All versions" container resolves
with a nonempty anchor list in which every anchor's text case-insensitively
contains "alpha" or "beta", getLatestStableURL fails with the
no-stable-version error, and when a "more uploads" link exists in the
container's last child its URL is printed as the diagnostic line. -/
theorem getLatestStableURL_all_prerelease (doc : Document) (container : ListWidget)
    (hFind : findContainerWithHeading doc.listWidgets "All versions" =
      Except.ok container)
    (hne : container.versionAnchors ≠ [])
    (hall : ∀ a ∈ container.versionAnchors, isStableAnchor a = false) :
    (getLatestStableURL doc).2 = Except.error Err.noStable ∧
    ∀ m, moreUploads container = some m →
      (getLatestStableURL doc).1 = [moreUploadsMsg m.href] := by
  have hfind : container.versionAnchors.find? isStableAnchor = none :=
    List.find?_eq_none.mpr fun x hx => by rw [hall x hx]; simp
  rw [getLatestStableURL_none doc container hFind hne hfind]
  cases hm : moreUploads container with
  | some m => exact ⟨rfl, fun m' hm' => by injection hm' with h; rw [h]⟩
  | none => exact ⟨rfl, fun m' hm' => by cases hm'⟩

/-- Witness for C7: a listing whose only upload is "2.0.0 beta" and whose
last child links `/more`; resolution fails and prints the diagnostic. -/
theorem getLatestStableURL_all_prerelease_witness :
    (getLatestStableURL docAllBeta).2 = Except.error Err.noStable ∧
    ∀ m, moreUploads wAllBeta = some m →
      (getLatestStableURL docAllBeta).1 = [moreUploadsMsg m.href] :=
  getLatestStableURL_all_prerelease docAllBeta wAllBeta (by decide) (by decide)
    (by decide)

/-- Listing widget whose only anchor text is "Version 4.12b release". -/
def wCase : ListWidget :=
  { headingText := some "All versions",
    versionAnchors := [
      { href := "/v1", textContent := some "Version 4.12b release", parent := none }],
    lastChildAnchors := [] }

/-- A listing page around `wCase`. -/
def docCase : Document :=
  { listWidgets := [wCase], downloadPageButton := none,
    directDownloadButton := none }

/-- Listing widget whose only anchor text is "Version 4.12.3 release". -/
def wMatch : ListWidget :=
  { headingText := some "All versions",
    versionAnchors := [
      { href := "/v412", textContent := some "Version 4.12.3 release", parent := none }],
    lastChildAnchors := [] }

/-- A listing page around `wMatch`. -/
def docMatch : Document :=
  { listWidgets := [wMatch], downloadPageButton := none,
    directDownloadButton := none }

/-- C3 counterexample: requesting "4.12B" against anchor text
"Version 4.12b release".  Under the claimed fully case-insensitive matching
the anchor matches (first conjunct), so the claim predicts the anchor's
href; the code lowercases only the anchor text and fails instead. -/
theorem getCustomVersionURL_case_cex :
    includes (toLowerStr "Version 4.12b release") (toLowerStr "4.12B") = true ∧
    (getCustomVersionURL "4.12B" docCase).2 = Except.error Err.noStable := by
  decide

/-- C3 amended: explicit-version resolution lowercases only the anchor
text, using the requested string verbatim: it selects the first anchor in
document order whose lowercased text contains the requested substring
(case differences in the anchor text are irrelevant; case in the requested
string is not normalized). -/
theorem getCustomVersionURL_first_match (version : String) (doc : Document)
    (container : ListWidget)
    (hFind : findContainerWithHeading doc.listWidgets "All versions" =
      Except.ok container)
    (hEx : ∃ a ∈ container.versionAnchors, matchesVersion version a = true) :
    ∃ a pre post, container.versionAnchors = pre ++ a :: post ∧
      matchesVersion version a = true ∧
      (∀ b ∈ pre, matchesVersion version b = false) ∧
      (getCustomVersionURL version doc).2 = Except.ok a.href := by
  obtain ⟨a0, ha0, hs0⟩ := hEx
  have hsome : (container.versionAnchors.find? (matchesVersion version)).isSome :=
    List.find?_isSome.mpr ⟨a0, ha0, hs0⟩
  obtain ⟨a, hfind⟩ := Option.isSome_iff_exists.mp hsome
  obtain ⟨pre, post, heq, hpa, hpre⟩ := find?_eq_some_split hfind
  exact ⟨a, pre, post, heq, hpa, hpre, by
    rw [getCustomVersionURL_ok version doc container a hFind hfind]⟩

/-- Witness for the amended C3: requesting "4.12" against anchor text
"Version 4.12.3 release" selects that anchor. -/
theorem getCustomVersionURL_first_match_witness :
    ∃ a pre post, wMatch.versionAnchors = pre ++ a :: post ∧
      matchesVersion "4.12" a = true ∧
      (∀ b ∈ pre, matchesVersion "4.12" b = false) ∧
      (getCustomVersionURL "4.12" docMatch).2 = Except.ok a.href :=
  getCustomVersionURL_first_match "4.12" docMatch wMatch (by decide) (by decide)

/-- Every element of a takeWhile satisfies the predicate. -/
theorem mem_takeWhile_pred {α : Type} (p : α → Bool) :
    ∀ (l : List α) (x : α), x ∈ l.takeWhile p → p x = true := by
  intro l
  induction l with
  | nil => intro x hx; simp [List.takeWhile] at hx
  | cons c cs ih =>
    intro x hx
    rw [List.takeWhile_cons] at hx
    by_cases hc : p c = true
    · rw [if_pos hc] at hx
      rcases List.mem_cons.mp hx with h | h
      · rw [h]; exact hc
      · exact ih x h
    · rw [if_neg hc] at hx; cases hx

/-- The first element a dropWhile leaves fails the predicate. -/
theorem head?_dropWhile_pred {α : Type} (p : α → Bool) :
    ∀ (l : List α) (c : α), (l.dropWhile p).head? = some c → p c = false := by
  intro l
  induction l with
  | nil => intro c hc; simp [List.dropWhile] at hc
  | cons x xs ih =>
    intro c hc
    rw [List.dropWhile_cons] at hc
    by_cases hx : p x = true
    · rw [if_pos hx] at hc; exact ih c hc
    · rw [if_neg hx] at hc
      injection hc with h; rw [← h]; exact Bool.eq_false_iff.mpr hx

/-- `firstRunList` finds exactly the leftmost maximal run of version
characters: either the list has none and the result is `none`, or the list
splits as `u ++ r ++ w` with `u` run-free, `r` a nonempty run that `w`
cannot extend, and the result is `some r`. -/
theorem firstRunList_spec (l : List Char) :
    (firstRunList l = none ∧ ∀ c ∈ l, isVerChar c = false) ∨
    (∃ u r w, l = u ++ r ++ w ∧ r ≠ [] ∧ (∀ c ∈ u, isVerChar c = false) ∧
      (∀ c ∈ r, isVerChar c = true) ∧
      (∀ c, w.head? = some c → isVerChar c = false) ∧
      firstRunList l = some r) := by
  induction l with
  | nil => left; exact ⟨rfl, by simp⟩
  | cons c cs ih =>
    by_cases hc : isVerChar c = true
    · right
      refine ⟨[], (c :: cs).takeWhile isVerChar, (c :: cs).dropWhile isVerChar,
        ?_, ?_, by simp, ?_, ?_, ?_⟩
      · rw [List.nil_append, List.takeWhile_append_dropWhile]
      · rw [List.takeWhile_cons, if_pos hc]; simp
      · exact fun x hx => mem_takeWhile_pred _ _ x hx
      · exact fun x hx => head?_dropWhile_pred _ _ x hx
      · simp [firstRunList, List.dropWhile_cons, hc]
    · have hcf : isVerChar c = false := Bool.eq_false_iff.mpr hc
      have hstep : firstRunList (c :: cs) = firstRunList cs := by
        simp [firstRunList, List.dropWhile_cons, hcf]
      rcases ih with ⟨hn, hall⟩ | ⟨u, r, w, heq, hr, hu, hrall, hw, hfr⟩
      · left
        refine ⟨by rw [hstep]; exact hn, ?_⟩
        intro x hx
        rcases List.mem_cons.mp hx with h | h
        · rw [h]; exact hcf
        · exact hall x h
      · right
        refine ⟨c :: u, r, w, by rw [heq]; rfl, hr, ?_, hrall, hw, by
          rw [hstep]; exact hfr⟩
        intro x hx
        rcases List.mem_cons.mp hx with h | h
        · rw [h]; exact hcf
        · exact hu x h

/-- Version anchor whose text holds two runs, "12" and the longer
"3.4.5". -/
def aRuns : Anchor :=
  { href := "/x", textContent := some "Update 12 build 3.4.5", parent := none }

/-- Listing widget around `aRuns`. -/
def wRuns : ListWidget :=
  { headingText := some "All versions",
    versionAnchors := [aRuns],
    lastChildAnchors := [] }

/-- A listing page around `wRuns`. -/
def docRuns : Document :=
  { listWidgets := [wRuns], downloadPageButton := none,
    directDownloadButton := none }

/-- C5 counterexample: on anchor text "Update 12 build 3.4.5" the longest
run of digits and dots is "3.4.5", but the resolution labels the version
"12" — the regex takes the leftmost run, not the longest. -/
theorem version_label_longest_cex :
    (getLatestStableURL docRuns).2 = Except.ok ("/x", "12") ∧
    specLongestRun "Update 12 build 3.4.5" = some "3.4.5" ∧
    extractVersion (some "Update 12 build 3.4.5") ≠ "3.4.5" := by
  decide

/-- C5 amended: the label of the selected anchor is the leftmost maximal
run of digits and dots in its text (`r` in the decomposition `u ++ r ++ w`
with `u` run-free and `w` unable to extend `r`); when the text has no digit
or dot (or is absent) the label is "unknown" and resolution still
succeeds. -/
theorem version_label_leftmost_run (doc : Document) (container : ListWidget)
    (a : Anchor)
    (hFind : findContainerWithHeading doc.listWidgets "All versions" =
      Except.ok container)
    (hfind : container.versionAnchors.find? isStableAnchor = some a) :
    (getLatestStableURL doc).2 = Except.ok (a.href, extractVersion a.textContent) ∧
    ((extractVersion a.textContent = "unknown" ∧
        ∀ t, a.textContent = some t → ∀ c ∈ t.data, isVerChar c = false) ∨
      ∃ t u r w, a.textContent = some t ∧ t.data = u ++ r ++ w ∧ r ≠ [] ∧
        (∀ c ∈ u, isVerChar c = false) ∧ (∀ c ∈ r, isVerChar c = true) ∧
        (∀ c, w.head? = some c → isVerChar c = false) ∧
        extractVersion a.textContent = String.mk r) := by
  refine ⟨by rw [getLatestStableURL_ok doc container a hFind hfind], ?_⟩
  cases ht : a.textContent with
  | none => exact Or.inl ⟨rfl, fun t h => by cases h⟩
  | some t =>
    rcases firstRunList_spec t.data with ⟨hn, hall⟩ | ⟨u, r, w, heq, hr, hu, hrall, hw, hfr⟩
    · left
      refine ⟨by simp [extractVersion, firstRun, hn], ?_⟩
      intro t' ht'
      injection ht' with h
      rw [← h]
      exact hall
    · exact Or.inr ⟨t, u, r, w, rfl, heq, hr, hu, hrall, hw, by
        simp [extractVersion, firstRun, hfr]⟩

/-- Witness for the amended C5 at anchor text "Update 12 build 3.4.5". -/
theorem version_label_leftmost_run_witness :
    (getLatestStableURL docRuns).2 =
      Except.ok (aRuns.href,
        extractVersion aRuns.textContent) ∧
    ((extractVersion aRuns.textContent = "unknown" ∧
        ∀ t, aRuns.textContent = some t →
          ∀ c ∈ t.data, isVerChar c = false) ∨
      ∃ t u r w, aRuns.textContent = some t ∧
        t.data = u ++ r ++ w ∧ r ≠ [] ∧
        (∀ c ∈ u, isVerChar c = false) ∧ (∀ c ∈ r, isVerChar c = true) ∧
        (∀ c, w.head? = some c → isVerChar c = false) ∧
        extractVersion aRuns.textContent = String.mk r) :=
  version_label_leftmost_run docRuns wRuns aRuns
    (by decide) (by decide)

/-- C4: the architecture filter of the non-bundle stage compares the
shadowed row text to itself, so it evaluates to true on every anchor for
every requested architecture, and the candidates surviving the filters are
exactly those surviving the structural filter alone. -/
theorem archFilter_passthrough (arch : String) (x : Anchor) (l : List Anchor) :
    archFilter arch x = true ∧ survivors l arch = l.filter structuralOk := by
  have hall : ∀ y : Anchor, archFilter arch y = true := by
    intro y
    unfold archFilter
    by_cases h : (arch != "") = true
    · rw [if_pos h]
      simp [beq_self_eq_true]
    · rw [if_neg h]
  exact ⟨hall x, by
    unfold survivors
    exact List.filter_eq_self.mpr fun a _ => hall a⟩

/-- One step of `findE` (definitional unfolding). -/
theorem findE_cons {α : Type} (p : α → Except Err Bool) (x : α) (xs : List α) :
    findE p (x :: xs) =
      match p x with
      | .error e => .error e
      | .ok true => .ok (some x)
      | .ok false => findE p xs := rfl

/-- A candidate selected by `findE` is in the list and passed its check. -/
theorem findE_ok_some {α : Type} (p : α → Except Err Bool) :
    ∀ (l : List α) (a : α), findE p l = Except.ok (some a) →
      a ∈ l ∧ p a = Except.ok true := by
  intro l
  induction l with
  | nil => intro a h; simp [findE] at h
  | cons x xs ih =>
    intro a h
    rw [findE_cons] at h
    cases hp : p x with
    | error e => rw [hp] at h; simp at h
    | ok b =>
      rw [hp] at h
      cases b with
      | true =>
        simp only [Except.ok.injEq, Option.some.injEq] at h
        rw [← h]
        exact ⟨List.mem_cons_self x xs, hp⟩
      | false =>
        obtain ⟨hm, hpa⟩ := ih a h
        exact ⟨List.mem_cons_of_mem _ hm, hpa⟩

/-- When every candidate before `x` checks out false and `x`'s check
throws, the scan throws that error. -/
theorem findE_split_error {α : Type} (p : α → Except Err Bool) (e : Err) :
    ∀ (pre post : List α) (x : α), (∀ b ∈ pre, p b = Except.ok false) →
      p x = Except.error e → findE p (pre ++ x :: post) = Except.error e := by
  intro pre
  induction pre with
  | nil => intro post x _ hx; rw [List.nil_append, findE_cons, hx]
  | cons b bs ih =>
    intro post x hpre hx
    rw [List.cons_append, findE_cons, hpre b (List.mem_cons_self b bs)]
    exact ih post x (fun y hy => hpre y (List.mem_cons_of_mem _ hy)) hx

/-- A candidate passing the bundle check has a parent with a nonempty badge
list in which no badge says "bundle". -/
theorem bundleCheck_ok_true (a : Anchor) (h : bundleCheck a = Except.ok true) :
    ∃ p, a.parent = some p ∧ p.badges ≠ [] ∧
      ∀ b ∈ p.badges, isBundleBadge b = false := by
  unfold bundleCheck at h
  cases hp : a.parent with
  | none => rw [hp] at h; simp [queryAll] at h
  | some p =>
    simp only [hp, Option.map_some'] at h
    by_cases hb : p.badges = []
    · rw [hb] at h; simp [queryAll] at h
    · rw [queryAll_ok _ hb] at h
      simp only [Except.ok.injEq] at h
      refine ⟨p, rfl, hb, ?_⟩
      intro b hbm
      have hany : p.badges.any isBundleBadge = false := by
        cases hany : p.badges.any isBundleBadge with
        | false => rfl
        | true => rw [hany] at h; cases h
      exact Bool.eq_false_iff.mpr (List.any_eq_false.mp hany b hbm)

/-! Download-container documents for the C2/C8 scenarios. -/

/-- Parent row of the first candidate: two children, one "bundle" badge. -/
def dlBundleParent : ParentEl :=
  { childCount := 2, badges := [some "bundle"], archText := some "arm64-v8a" }

/-- Parent row of a second candidate with no badge at all. -/
def dlNoBadgeParent : ParentEl :=
  { childCount := 2, badges := [], archText := some "arm64-v8a" }

/-- Parent row of a second candidate with a non-bundle "APK" badge. -/
def dlApkParent : ParentEl :=
  { childCount := 2, badges := [some "APK"], archText := some "arm64-v8a" }

/-- First candidate anchor, a bundle row. -/
def dlBundle : Anchor :=
  { href := "/b1", textContent := some "bundle row", parent := some dlBundleParent }

/-- Second candidate anchor with badge list `[]`. -/
def dlNoBadge : Anchor :=
  { href := "/b2", textContent := some "apk row", parent := some dlNoBadgeParent }

/-- Second candidate anchor with badge list `["APK"]`. -/
def dlApk : Anchor :=
  { href := "/b2", textContent := some "apk row", parent := some dlApkParent }

/-- "Download" widget whose candidates have badge lists `["bundle"]`, `[]`. -/
def wDl : ListWidget :=
  { headingText := some "Download", versionAnchors := [],
    lastChildAnchors := [dlBundle, dlNoBadge] }

/-- "Download" widget whose candidates have badge lists `["bundle"]`,
`["APK"]`. -/
def wDlApk : ListWidget :=
  { headingText := some "Download", versionAnchors := [],
    lastChildAnchors := [dlBundle, dlApk] }

/-- A download page around `wDl`. -/
def docDl : Document :=
  { listWidgets := [wDl], downloadPageButton := none, directDownloadButton := none }

/-- A download page around `wDlApk`. -/
def docDlApk : Document :=
  { listWidgets := [wDlApk], downloadPageButton := none,
    directDownloadButton := none }

/-- C2 counterexample: in the claimed scenario (first candidate badge list
`["bundle"]`, second `[]`, arch "arm64-v8a") getNonBundleURL does not
return the second candidate's href "/b2": the badge query on the second
candidate finds no element and the stage throws the selector error. -/
theorem nonBundle_second_candidate_cex :
    getNonBundleURL docDl "arm64-v8a" ≠ Except.ok "/b2" ∧
    getNonBundleURL docDl "arm64-v8a" = Except.error Err.selectorNotFound := by
  decide

/-- C2 amended: a candidate whose badges include "bundle" is never
selected — a successful getNonBundleURL returns the href of a surviving
candidate whose nonempty badge list is free of "bundle"; and in the
scenario with badge lists `["bundle"]` then `["APK"]` the second
candidate's href "/b2" is returned (with a second badge list `[]` the
stage instead fails with the selector error). -/
theorem getNonBundleURL_excludes_bundle (doc : Document) (arch h : String)
    (container : ListWidget)
    (hFind : findContainerWithHeading doc.listWidgets "Download" =
      Except.ok container)
    (hne : container.lastChildAnchors ≠ [])
    (hok : getNonBundleURL doc arch = Except.ok h) :
    (∃ a ∈ survivors container.lastChildAnchors arch, a.href = h ∧
      ∃ p, a.parent = some p ∧ p.badges ≠ [] ∧
        ∀ b ∈ p.badges, isBundleBadge b = false) ∧
    getNonBundleURL docDlApk "arm64-v8a" = Except.ok "/b2" := by
  refine ⟨?_, by decide⟩
  rw [getNonBundleURL_eq doc arch container hFind hne] at hok
  cases hf : findE bundleCheck (survivors container.lastChildAnchors arch) with
  | error e => rw [hf] at hok; simp at hok
  | ok o =>
    cases o with
    | none => rw [hf] at hok; simp at hok
    | some a =>
      rw [hf] at hok
      simp only [Except.ok.injEq] at hok
      obtain ⟨hm, hpa⟩ := findE_ok_some bundleCheck _ a hf
      exact ⟨a, hm, hok, bundleCheck_ok_true a hpa⟩

/-- Witness for the amended C2 at the `["bundle"]` / `["APK"]` scenario. -/
theorem getNonBundleURL_excludes_bundle_witness :
    (∃ a ∈ survivors wDlApk.lastChildAnchors "arm64-v8a", a.href = "/b2" ∧
      ∃ p, a.parent = some p ∧ p.badges ≠ [] ∧
        ∀ b ∈ p.badges, isBundleBadge b = false) ∧
    getNonBundleURL docDlApk "arm64-v8a" = Except.ok "/b2" :=
  getNonBundleURL_excludes_bundle docDlApk "arm64-v8a" "/b2" wDlApk
    (by decide) (by decide) (by decide)

/-- C8: when the scan of surviving candidates reaches one whose parent has
no ".apkm-badge" element (every earlier survivor having checked out as a
bundle), getNonBundleURL fails with the selector error rather than
selecting that candidate. -/
theorem getNonBundleURL_no_badge_fails (doc : Document) (arch : String)
    (container : ListWidget) (pre post : List Anchor) (x : Anchor) (p : ParentEl)
    (hFind : findContainerWithHeading doc.listWidgets "Download" =
      Except.ok container)
    (hne : container.lastChildAnchors ≠ [])
    (hsplit : survivors container.lastChildAnchors arch = pre ++ x :: post)
    (hpre : ∀ b ∈ pre, bundleCheck b = Except.ok false)
    (hx : x.parent = some p) (hb : p.badges = []) :
    getNonBundleURL doc arch = Except.error Err.selectorNotFound := by
  have hbc : bundleCheck x = Except.error Err.selectorNotFound := by
    simp [bundleCheck, hx, hb, queryAll]
  rw [getNonBundleURL_eq doc arch container hFind hne, hsplit,
    findE_split_error bundleCheck Err.selectorNotFound pre post x hpre hbc]

/-- Witness for C8 at the `["bundle"]` / `[]` scenario. -/
theorem getNonBundleURL_no_badge_fails_witness :
    getNonBundleURL docDl "arm64-v8a" = Except.error Err.selectorNotFound :=
  getNonBundleURL_no_badge_fails docDl "arm64-v8a" wDl [dlBundle] [] dlNoBadge
    dlNoBadgeParent (by decide) (by decide) (by decide) (by decide) (by decide)
    (by decide)

/-- C6 counterexample: a response whose content type equals the package
MIME type but whose body is null is not written and fails — refuting
"writes the output file if and only if the content type equals the MIME
type". -/
theorem download_null_body_cex :
    (download "app" "/u" "arm64-v8a" "1.0"
        { contentType := some apkMime, body := none }).2 =
      Except.error Err.downloadFailed ∧
    Effect.writeFile (apkPath "app" "arm64-v8a" "1.0") ∉
      (download "app" "/u" "arm64-v8a" "1.0"
        { contentType := some apkMime, body := none }).1 := by
  decide

/-- C6 amended: the downloader writes the output file iff the declared
content type equals the package MIME type AND the response body is
non-null; in every other case (a different content type such as
"text/html", or a null body) it fails with the download error and writes
no file. -/
theorem download_writes_iff (n u a v : String) (r : Response) :
    ((download n u a v r).2 = Except.ok () ↔
      r.contentType = some apkMime ∧ r.body ≠ none) ∧
    ((Effect.writeFile (apkPath n a v) ∈ (download n u a v r).1) ↔
      r.contentType = some apkMime ∧ r.body ≠ none) ∧
    (∀ q, Effect.writeFile q ∈ (download n u a v r).1 → q = apkPath n a v) ∧
    ((download n u a v r).2 ≠ Except.ok () →
      (download n u a v r).2 = Except.error Err.downloadFailed) := by
  rcases r with ⟨ct, body⟩
  by_cases hct : ct = some apkMime
  · cases body with
    | none => simp [download, hct]
    | some b => simp [download, hct]
  · have hbeq : (ct == some apkMime) = false := by
      cases hb : ct == some apkMime with
      | false => rfl
      | true => exact absurd (eq_of_beq hb) hct
    cases body with
    | none => simp [download, hbeq, hct]
    | some b => simp [download, hbeq, hct]

/-- C9: the downloader records the recursive creation of the "apps"
directory on every call — the trace always begins with the fetch followed
by the mkdir, before any content-type decision — while the output-file
write happens exactly on the success branch. -/
theorem download_mkdir_always (n u a v : String) (r : Response) :
    (download n u a v r).1.take 2 = [Effect.fetch u, Effect.mkdirRec "apps"] ∧
    Effect.mkdirRec "apps" ∈ (download n u a v r).1 ∧
    ((∃ q, Effect.writeFile q ∈ (download n u a v r).1) ↔
      (download n u a v r).2 = Except.ok ()) := by
  rcases r with ⟨ct, body⟩
  cases body with
  | none => simp [download]
  | some b =>
    cases hb : ct == some apkMime with
    | false => simp [download, hb]
    | true => simp [download, hb]

/-- An environment for closed runs of `downloadApp`. -/
def envTest : Env :=
  { fetchDoc := fun _ => docStable,
    fetchResp := fun _ => { contentType := some apkMime, body := some () } }

/-- C10: with an empty package name or an empty listing path, downloadApp
throws the empty-argument error immediately: its effect trace is empty — no
HTTP fetch, no directory creation and no file write, in any environment. -/
theorem downloadApp_empty_arg (env : Env) (name urlPath arch : String)
    (version : Option String) (h : name = "" ∨ urlPath = "") :
    downloadApp env name urlPath arch version =
      ([], Except.error Err.emptyArgument) := by
  rcases h with h | h <;> simp [downloadApp, h]

/-- Witness for C10 with an empty package name. -/
theorem downloadApp_empty_arg_witness :
    downloadApp envTest "" "/apk/example-app" "arm64-v8a" none =
      ([], Except.error Err.emptyArgument) :=
  downloadApp_empty_arg envTest "" "/apk/example-app" "arm64-v8a" none (Or.inl rfl)

end Apkmd
